import Mathlib

/-!
# Verification of the anonymous-chat matchmaking bot (`src/bot.py`)

This file is a shallow embedding of the matchmaking / moderation engine of
the bot.  We model the in-memory fallback path of the code (the branch taken
when `db_pool` is `None`): the shared mutable dictionaries
`memory_queue`, `memory_pairs`, `memory_status`, `memory_banned`,
`memory_reports`, `all_complaints`, `user_codes`, `user_reporting` and
`waiting_tasks` become fields of a `BotS` record, and every handler becomes a
pure function `BotS → BotS`.  Outgoing Telegram messages are recorded as an
append-only list of `Ev` events carrying the recipient and which message was
sent.  Python dictionaries are modelled as association lists with
first-match lookup, in-place replacement on insert, and first-match removal
(keys stay duplicate-free exactly as in a Python dict).

Python truthiness matters in the source (`if partner:` is false both for
`None` and for the integer `0`); it is modelled by `tval`.  Telegram user
ids are positive integers, so the step relation below only admits non-zero
participant ids.
-/

namespace ChatBot

/-- Session status of a participant, mirroring the string values
`'idle' | 'searching' | 'chatting'` stored in `memory_status`. -/
inductive Status where
  | idle
  | searching
  | chatting
  deriving DecidableEq

/-- A report record, mirroring the dict
`{"id": .., "from": .., "to": .., "reason": .., "ignored": False}`
appended to `memory_reports` by `report_reason`. -/
structure Report where
  rid : Nat
  rfrom : Nat
  rto : Nat
  reason : String
  ignored : Bool
  deriving DecidableEq

/-- The content of a relayed Telegram message, as the tagged variant the
`relay` handler dispatches on (text / photo / sticker / voice / document /
video, anything else is unsupported). -/
inductive Content where
  | ctext (t : String)
  | photo
  | sticker
  | voice
  | document
  | video
  | other
  deriving DecidableEq

/-- One outgoing `bot.send_message` / `msg.answer` call: the recipient and
which of the fixed messages of `bot.py` was sent. -/
inductive Ev where
  | partnerLeft (dst : Nat)
  | bannedByMod (dst : Nat)
  | autoBanned (dst : Nat)
  | modAutoBan (modId uid : Nat)
  | modComplaint (modId uid : Nat)
  | searching (dst : Nat)
  | alreadyInChat (dst : Nat)
  | youAreBanned (dst : Nat)
  | needSubscribe (dst : Nat)
  | welcome (dst : Nat)
  | found (dst : Nat)
  | noPartner (dst : Nat)
  | describeReason (dst : Nat)
  | notInChat (dst : Nat)
  | reportSent (dst : Nat)
  | endedByReport (dst : Nat)
  | reportCancelled (dst : Nat)
  | searchCancelled (dst : Nat)
  | dialogEnded (dst : Nat)
  | delivered (dst : Nat) (c : Content)
  | unsupported (dst : Nat)
  | relayError (dst : Nat)
  | unbanned (dst : Nat)
  deriving DecidableEq

/-- The recipient of an event. -/
def evTarget : Ev → Nat
  | .partnerLeft d => d
  | .bannedByMod d => d
  | .autoBanned d => d
  | .modAutoBan m _ => m
  | .modComplaint m _ => m
  | .searching d => d
  | .alreadyInChat d => d
  | .youAreBanned d => d
  | .needSubscribe d => d
  | .welcome d => d
  | .found d => d
  | .noPartner d => d
  | .describeReason d => d
  | .notInChat d => d
  | .reportSent d => d
  | .endedByReport d => d
  | .reportCancelled d => d
  | .searchCancelled d => d
  | .dialogEnded d => d
  | .delivered d _ => d
  | .unsupported d => d
  | .relayError d => d
  | .unbanned d => d

/-! ## Python dict / set primitives over association lists -/

/-- `d[k]` lookup in a Python dict (first matching key). -/
def dlookup {β : Type} (d : List (Nat × β)) (k : Nat) : Option β :=
  match d with
  | [] => none
  | (a, b) :: rest => if a = k then some b else dlookup rest k

/-- `d[k] = v` on a Python dict: replace in place if the key exists,
otherwise append. -/
def dinsert {β : Type} (d : List (Nat × β)) (k : Nat) (v : β) : List (Nat × β) :=
  match d with
  | [] => [(k, v)]
  | (a, b) :: rest => if a = k then (k, v) :: rest else (a, b) :: dinsert rest k v

/-- `d.pop(k, None)` on a Python dict: drop the first entry with this key. -/
def derase {β : Type} (d : List (Nat × β)) (k : Nat) : List (Nat × β) :=
  match d with
  | [] => []
  | (a, b) :: rest => if a = k then rest else (a, b) :: derase rest k

/-- The keys of an association list. -/
def keys {β : Type} (d : List (Nat × β)) : List Nat := d.map Prod.fst

/-- `s.add(x)` on a Python set (modelled as a duplicate-free list). -/
def sinsert (l : List Nat) (u : Nat) : List Nat :=
  if u ∈ l then l else u :: l

/-- Python truthiness of an optional user id: `if partner:` in the source is
false both for `None` and for the id `0`. -/
def tval : Option Nat → Option Nat
  | some p => if p = 0 then none else some p
  | none => none

/-! ## The shared state -/

/-- The shared mutable state of `bot.py` (in-memory branch).  `now` is the
event-loop clock used for `enqueued_at` stamps, and `events` is the log of
outgoing messages.

Wait tasks need two fields.  `waiting` holds the keys of `waiting_tasks`:
for each uid at most one *registered* task, the one the dict currently
references.  `orphans` holds the uids of `wait_for_partner` tasks that are
still running but no longer referenced by the dict: `search_for_user` ends
with the plain dict overwrite `waiting_tasks[uid] = task`, so a repeat
search drops the reference to the previous task without cancelling it.
Such an orphaned task keeps polling (for up to 30 ticks) and cannot be
reached by `waiting_tasks[uid].cancel()`; `orphans` is a multiset, since
every further repeat search leaks one more task. -/
structure BotS where
  now : Nat
  queue : List (Nat × Nat)
  pairs : List (Nat × Nat)
  status : List (Nat × Status)
  banned : List Nat
  reports : List Report
  complaints : List (Nat × Nat)
  reporting : List (Nat × Nat)
  waiting : List Nat
  orphans : List Nat
  events : List Ev
  deriving DecidableEq

/-- The empty startup state (in-memory mode: nothing loaded from a DB). -/
def init : BotS :=
  { now := 0, queue := [], pairs := [], status := [], banned := [],
    reports := [], complaints := [], reporting := [], waiting := [],
    orphans := [], events := [] }

/-- Record one outgoing message. -/
def emit (s : BotS) (e : Ev) : BotS := { s with events := s.events ++ [e] }

/-! ## Operations, translated function by function from `bot.py` -/

/-- `add_to_queue` (memory branch): append `(uid, now)` to `memory_queue`
and set `memory_status[uid] = 'searching'`. -/
def add_to_queue (s : BotS) (uid : Nat) : BotS :=
  { s with queue := s.queue ++ [(uid, s.now)],
           now := s.now + 1,
           status := dinsert s.status uid .searching }

/-- `remove_from_queue` (memory branch): drop every queue entry of `uid` and
set `memory_status[uid] = 'idle'`. -/
def remove_from_queue (s : BotS) (uid : Nat) : BotS :=
  { s with queue := s.queue.filter (fun e => e.1 != uid),
           status := dinsert s.status uid .idle }

/-- `find_partner` (memory branch): scan `memory_queue` in order and return
the first user id different from `exclude_id`. -/
def find_partner (q : List (Nat × Nat)) (ex : Nat) : Option Nat :=
  match q with
  | [] => none
  | (u, _) :: rest => if u ≠ ex then some u else find_partner rest ex

/-- `get_partner` (memory branch): `memory_pairs.get(uid)`. -/
def get_partner (s : BotS) (uid : Nat) : Option Nat := dlookup s.pairs uid

/-- `create_pair` (memory branch): insert the two symmetric entries, remove
both users from the queue, and set both statuses to `'chatting'`. -/
def create_pair (s : BotS) (a b : Nat) : BotS :=
  let s1 := { s with pairs := dinsert (dinsert s.pairs a b) b a }
  let s2 := remove_from_queue s1 a
  let s3 := remove_from_queue s2 b
  { s3 with status := dinsert (dinsert s3.status a .chatting) b .chatting }

/-- `break_pair`: look up the partner (`if partner:` — Python truthiness),
remove both directed entries, set both statuses to `'idle'`, and return the
former partner. -/
def break_pair (s : BotS) (uid : Nat) : BotS × Option Nat :=
  match tval (get_partner s uid) with
  | some p =>
      ({ s with pairs := derase (derase s.pairs uid) p,
                status := dinsert (dinsert s.status uid .idle) p .idle }, some p)
  | none => (s, none)

/-- `is_banned` (memory branch): `uid in memory_banned`. -/
def is_banned (s : BotS) (uid : Nat) : Bool := uid ∈ s.banned

/-- `waiting_tasks[uid].cancel(); del waiting_tasks[uid]` (guarded by
`if uid in waiting_tasks`). -/
def cancel_task (s : BotS) (uid : Nat) : BotS :=
  { s with waiting := s.waiting.filter (fun u => u != uid) }

/-- `ban_user_complete`: add to `memory_banned`, cancel any waiting task,
remove from the queue, break any pair notifying the former partner, and
notify the banned user. -/
def ban_user_complete (s : BotS) (uid : Nat) : BotS :=
  let s1 := { s with banned := sinsert s.banned uid }
  let s2 := cancel_task s1 uid
  let s3 := remove_from_queue s2 uid
  let r := break_pair s3 uid
  let s5 := match r.2 with
    | some p => emit r.1 (.partnerLeft p)
    | none => r.1
  emit s5 (.bannedByMod uid)

/-- `ban_user_auto`: same cascade as `ban_user_complete` but with the
auto-ban message to the user and, when a moderator is configured
(`if MODERATOR_ID:`), the distinct auto-ban notice to the moderator. -/
def ban_user_auto (modId : Nat) (s : BotS) (uid : Nat) : BotS :=
  let s1 := { s with banned := sinsert s.banned uid }
  let s2 := cancel_task s1 uid
  let s3 := remove_from_queue s2 uid
  let r := break_pair s3 uid
  let s5 := match r.2 with
    | some p => emit r.1 (.partnerLeft p)
    | none => r.1
  let s6 := emit s5 (.autoBanned uid)
  if modId ≠ 0 then emit s6 (.modAutoBan modId uid) else s6

/-- `all_complaints.get(uid, 0)`. -/
def complaintGet (s : BotS) (uid : Nat) : Nat := (dlookup s.complaints uid).getD 0

/-- `increment_complaints`: bump the counter; if the new count is `>= 5` and
the user is not banned, trigger `ban_user_auto`.  Returns the new count. -/
def increment_complaints (modId : Nat) (s : BotS) (uid : Nat) : BotS × Nat :=
  let c := complaintGet s uid + 1
  let s1 := { s with complaints := dinsert s.complaints uid c }
  if 5 ≤ c ∧ is_banned s1 uid = false then (ban_user_auto modId s1 uid, c)
  else (s1, c)

/-- `clear_complaints`: drop the counter and every report targeting `uid`. -/
def clear_complaints (s : BotS) (uid : Nat) : BotS :=
  { s with complaints := derase s.complaints uid,
           reports := s.reports.filter (fun r => r.rto != uid) }

/-- `search_for_user`: reject when banned, already in a chat
(`if await get_partner(uid):` — truthiness), or not subscribed
(`sub` is the result of `check_subscription`); otherwise enqueue, announce
the search, create a `wait_for_partner` task and register it with the dict
overwrite `waiting_tasks[uid] = task`.  If the dict already held a task for
this uid (the user was already searching), that previous task is *not*
cancelled — it merely loses its dict reference and becomes an orphan that
keeps polling. -/
def search_for_user (s : BotS) (uid : Nat) (sub : Bool) : BotS :=
  if is_banned s uid then emit s (.youAreBanned uid)
  else if (tval (get_partner s uid)).isSome then emit s (.alreadyInChat uid)
  else if !sub then emit s (.needSubscribe uid)
  else
    let s1 := add_to_queue s uid
    let s2 := emit s1 (.searching uid)
    { s2 with waiting := sinsert s2.waiting uid,
              orphans := if uid ∈ s2.waiting then s2.orphans ++ [uid]
                         else s2.orphans }

/-- One polling iteration of the `wait_for_partner` task body: if already
paired, deregister the task; otherwise try `find_partner` and on success
create the pair, notify both sides and deregister. -/
def wait_tick (s : BotS) (uid : Nat) : BotS :=
  if (tval (get_partner s uid)).isSome then cancel_task s uid
  else match find_partner s.queue uid with
    | some p =>
        let s1 := create_pair s uid p
        let s2 := emit (emit s1 (.found uid)) (.found p)
        cancel_task s2 uid
    | none => s

/-- The timeout tail of `wait_for_partner` (after 30 fruitless polls):
dequeue, deregister the task, and report that nobody was found. -/
def wait_timeout (s : BotS) (uid : Nat) : BotS :=
  let s1 := remove_from_queue s uid
  let s2 := cancel_task s1 uid
  emit s2 (.noPartner uid)

/-- An orphaned `wait_for_partner` task terminates: the task itself leaves
the orphan pool, and its `if uid in waiting_tasks: del waiting_tasks[uid]`
drops the dict entry — which, if present, referenced a *different*, newer
task; that task is not cancelled by the `del` and becomes an orphan in
turn. -/
def orphan_exit (s : BotS) (uid : Nat) : BotS :=
  { s with waiting := s.waiting.filter (fun u => u != uid),
           orphans := if uid ∈ s.waiting then (s.orphans.erase uid) ++ [uid]
                      else s.orphans.erase uid }

/-- One polling iteration of an *orphaned* `wait_for_partner` task.  The
loop body is the same as for a registered task — in particular it re-checks
neither `is_banned` nor the dict, so it can still call `create_pair` for a
user who has been banned since — only the `del waiting_tasks[uid]`
bookkeeping on return differs (`orphan_exit`). -/
def orphan_tick (s : BotS) (uid : Nat) : BotS :=
  if (tval (get_partner s uid)).isSome then orphan_exit s uid
  else match find_partner s.queue uid with
    | some p =>
        let s1 := create_pair s uid p
        let s2 := emit (emit s1 (.found uid)) (.found p)
        orphan_exit s2 uid
    | none => s

/-- The timeout tail of an orphaned `wait_for_partner` task. -/
def orphan_timeout (s : BotS) (uid : Nat) : BotS :=
  let s1 := remove_from_queue s uid
  let s2 := orphan_exit s1 uid
  emit s2 (.noPartner uid)

/-- The `report` handler: if in a chat (`if partner:`), open a report draft
`user_reporting[uid] = partner` and ask for the reason. -/
def report_cmd (s : BotS) (uid : Nat) : BotS :=
  match tval (get_partner s uid) with
  | some p => emit { s with reporting := dinsert s.reporting uid p } (.describeReason uid)
  | none => emit s (.notInChat uid)

/-- The `cancel_report` handler: drop the draft if one exists. -/
def cancel_report (s : BotS) (uid : Nat) : BotS :=
  if (dlookup s.reporting uid).isSome then
    emit { s with reporting := derase s.reporting uid } (.reportCancelled uid)
  else s

/-- The `report_reason` handler: pop the draft (`if not partner: return` —
truthiness, so a popped target `0` aborts), record the report, increment the
complaint counter of the target (possibly auto-banning them), break the
reporter's pair, answer both sides, and notify the moderator. -/
def report_reason (modId : Nat) (s : BotS) (uid : Nat) (txt : String) : BotS :=
  match dlookup s.reporting uid with
  | none => s
  | some partner =>
    let s0 := { s with reporting := derase s.reporting uid }
    if partner = 0 then s0
    else
      let reason := if txt = "" then "Без причины" else txt
      let reportId := s0.reports.length + 1
      let s1 := { s0 with reports :=
        s0.reports ++ [⟨reportId, uid, partner, reason, false⟩] }
      let s2 := (increment_complaints modId s1 partner).1
      let s3 := (break_pair s2 uid).1
      let s4 := emit s3 (.reportSent uid)
      let s5 := emit s4 (.endedByReport partner)
      if modId ≠ 0 then emit s5 (.modComplaint modId partner) else s5

/-- The `/cancel` handler (the `cancel_search` button handler performs the
same state change): cancel any waiting task, dequeue, and confirm. -/
def cancel_cmd (s : BotS) (uid : Nat) : BotS :=
  let s1 := cancel_task s uid
  let s2 := remove_from_queue s1 uid
  emit s2 (.searchCancelled uid)

/-- The `/stop` handler: cancel any waiting task, break the pair notifying
the former partner (`if partner:`), and confirm. -/
def stop_cmd (s : BotS) (uid : Nat) : BotS :=
  let s1 := cancel_task s uid
  let r := break_pair s1 uid
  let s3 := match r.2 with
    | some p => emit r.1 (.partnerLeft p)
    | none => r.1
  emit s3 (.dialogEnded uid)

/-- The `/next` handler: remember the current partner, stop, then restart a
search for the former partner (`if partner:`) and for the caller. -/
def next_cmd (s : BotS) (uid : Nat) (sub1 sub2 : Bool) : BotS :=
  let partner := tval (get_partner s uid)
  let s1 := stop_cmd s uid
  let s2 := match partner with
    | some p => search_for_user s1 p sub1
    | none => s1
  search_for_user s2 uid sub2

/-- The `/start` handler: `ensure_user` (memory branch: status `'idle'`),
break any pair, dequeue, set status `'idle'`, then greet or ask for the
subscription. -/
def start_cmd (s : BotS) (uid : Nat) (sub : Bool) : BotS :=
  let s1 := { s with status := dinsert s.status uid .idle }
  let s2 := (break_pair s1 uid).1
  let s3 := remove_from_queue s2 uid
  let s4 := { s3 with status := dinsert s3.status uid .idle }
  if sub then emit s4 (.welcome uid) else emit s4 (.needSubscribe uid)

/-- The `/unban` handler (and the `unban_` callback): discard from
`memory_banned`, congratulate the user, and clear complaints and reports
against them. -/
def unban_cmd (s : BotS) (uid : Nat) : BotS :=
  let s1 := { s with banned := s.banned.filter (fun u => u != uid) }
  let s2 := emit s1 (.unbanned uid)
  clear_complaints s2 uid

/-- The `ign_` moderator callback: mark the first report with this id as
ignored (it stays in the list for statistics). -/
def markIgnored : List Report → Nat → List Report
  | [], _ => []
  | r :: rest, rid =>
      if r.rid = rid then { r with ignored := true } :: rest
      else r :: markIgnored rest rid

/-- State effect of the `ign_` callback. -/
def ignore_report (s : BotS) (rid : Nat) : BotS :=
  { s with reports := markIgnored s.reports rid }

/-- The `relay` handler: a sender with an open report draft is skipped
entirely; otherwise forward the content to the partner (empty text falls
through every content check to the unsupported-type message).  `ok` is the
success of the underlying Telegram send; on failure the `except` branch
breaks the pair and tells the sender the chat was interrupted. -/
def relay (s : BotS) (uid : Nat) (c : Content) (ok : Bool) : BotS :=
  if (dlookup s.reporting uid).isSome then s
  else match tval (get_partner s uid) with
    | none => s
    | some partner =>
      if ok then
        match c with
        | .ctext t => if t = "" then emit s (.unsupported partner)
                      else emit s (.delivered partner (.ctext t))
        | .other => emit s (.unsupported partner)
        | c2 => emit s (.delivered partner c2)
      else
        emit (break_pair s uid).1 (.relayError uid)

/-- The DB branch of `add_to_queue`:
`INSERT INTO queue(user_id) VALUES($1) ON CONFLICT DO NOTHING` against a
table with `user_id BIGINT PRIMARY KEY` — a second insert of the same user
is a no-op. -/
def db_add_to_queue (q : List Nat) (uid : Nat) : List Nat :=
  if uid ∈ q then q else q ++ [uid]

/-! ## The step relation: one handler invocation (or one suspension point of
the `wait_for_partner` task) at a time.  Telegram ids are positive, hence
the `u ≠ 0` side conditions; polling steps require the task to be alive. -/

/-- One atomic step of the system, indexed by the configured
`MODERATOR_ID`. -/
inductive Step (modId : Nat) : BotS → BotS → Prop where
  | start (s : BotS) (u : Nat) (sub : Bool) (h : u ≠ 0) :
      Step modId s (start_cmd s u sub)
  | search (s : BotS) (u : Nat) (sub : Bool) (h : u ≠ 0) :
      Step modId s (search_for_user s u sub)
  | tick (s : BotS) (u : Nat) (h : u ≠ 0) (hw : u ∈ s.waiting) :
      Step modId s (wait_tick s u)
  | timeout (s : BotS) (u : Nat) (h : u ≠ 0) (hw : u ∈ s.waiting) :
      Step modId s (wait_timeout s u)
  | otick (s : BotS) (u : Nat) (h : u ≠ 0) (hw : u ∈ s.orphans) :
      Step modId s (orphan_tick s u)
  | otimeout (s : BotS) (u : Nat) (h : u ≠ 0) (hw : u ∈ s.orphans) :
      Step modId s (orphan_timeout s u)
  | stop (s : BotS) (u : Nat) (h : u ≠ 0) :
      Step modId s (stop_cmd s u)
  | cancel (s : BotS) (u : Nat) (h : u ≠ 0) :
      Step modId s (cancel_cmd s u)
  | next (s : BotS) (u : Nat) (sub1 sub2 : Bool) (h : u ≠ 0) :
      Step modId s (next_cmd s u sub1 sub2)
  | report (s : BotS) (u : Nat) (h : u ≠ 0) :
      Step modId s (report_cmd s u)
  | creport (s : BotS) (u : Nat) (h : u ≠ 0) :
      Step modId s (cancel_report s u)
  | reason (s : BotS) (u : Nat) (txt : String) (h : u ≠ 0) :
      Step modId s (report_reason modId s u txt)
  | msg (s : BotS) (u : Nat) (c : Content) (ok : Bool) (h : u ≠ 0) :
      Step modId s (relay s u c ok)
  | ban (s : BotS) (u : Nat) (h : u ≠ 0) :
      Step modId s (ban_user_complete s u)
  | unban (s : BotS) (u : Nat) (h : u ≠ 0) :
      Step modId s (unban_cmd s u)
  | ignore (s : BotS) (rid : Nat) :
      Step modId s (ignore_report s rid)

/-- States reachable from startup. -/
inductive Reachable (modId : Nat) : BotS → Prop where
  | init : Reachable modId init
  | step {s t : BotS} : Reachable modId s → Step modId s t → Reachable modId t

/-! ## Association-list lemmas -/

theorem dlookup_dinsert_self {β : Type} (d : List (Nat × β)) (k : Nat) (v : β) :
    dlookup (dinsert d k v) k = some v := by
  induction d with
  | nil => simp [dinsert, dlookup]
  | cons hd tl ih =>
      obtain ⟨a, b⟩ := hd
      by_cases hak : a = k
      · simp [dinsert, hak, dlookup]
      · simp [dinsert, hak, dlookup, ih]

theorem dlookup_dinsert_ne {β : Type} (d : List (Nat × β)) (k : Nat) (v : β) (x : Nat)
    (hx : x ≠ k) : dlookup (dinsert d k v) x = dlookup d x := by
  induction d with
  | nil => simp [dinsert, dlookup, Ne.symm hx]
  | cons hd tl ih =>
      obtain ⟨a, b⟩ := hd
      by_cases hak : a = k
      · subst hak
        simp [dinsert, dlookup, Ne.symm hx]
      · simp [dinsert, hak, dlookup, ih]

theorem dlookup_eq_none_iff {β : Type} (d : List (Nat × β)) (k : Nat) :
    dlookup d k = none ↔ k ∉ keys d := by
  induction d with
  | nil => simp [dlookup, keys]
  | cons hd tl ih =>
      obtain ⟨a, b⟩ := hd
      by_cases hak : a = k
      · subst hak
        simp [dlookup, keys]
      · simp [dlookup, hak, keys, ih, Ne.symm hak]

theorem mem_keys_dinsert {β : Type} (d : List (Nat × β)) (k : Nat) (v : β) (x : Nat) :
    x ∈ keys (dinsert d k v) ↔ x = k ∨ x ∈ keys d := by
  induction d with
  | nil => simp [dinsert, keys]
  | cons hd tl ih =>
      obtain ⟨a, b⟩ := hd
      by_cases hak : a = k
      · subst hak
        simp [dinsert, keys]
      · simp only [dinsert, if_neg hak, keys, List.map_cons, List.mem_cons] at *
        rw [ih]
        tauto

theorem nodup_keys_dinsert {β : Type} (d : List (Nat × β)) (k : Nat) (v : β)
    (h : (keys d).Nodup) : (keys (dinsert d k v)).Nodup := by
  induction d with
  | nil => simp [dinsert, keys]
  | cons hd tl ih =>
      obtain ⟨a, b⟩ := hd
      simp only [keys, List.map_cons, List.nodup_cons] at h
      by_cases hak : a = k
      · subst hak
        simpa [dinsert, keys, List.nodup_cons] using h
      · simp only [dinsert, if_neg hak, keys, List.map_cons, List.nodup_cons]
        refine ⟨?_, ih h.2⟩
        intro hmem
        rcases (mem_keys_dinsert tl k v a).mp hmem with h1 | h2
        · exact hak h1
        · exact h.1 h2

theorem mem_keys_derase {β : Type} (d : List (Nat × β)) (k x : Nat) :
    x ∈ keys (derase d k) → x ∈ keys d := by
  induction d with
  | nil => simp [derase]
  | cons hd tl ih =>
      obtain ⟨a, b⟩ := hd
      by_cases hak : a = k
      · subst hak
        simp only [derase, if_pos rfl, keys, List.map_cons, List.mem_cons]
        exact fun h => Or.inr h
      · simp only [derase, if_neg hak, keys, List.map_cons, List.mem_cons]
        rintro (h1 | h2)
        · exact Or.inl h1
        · exact Or.inr (ih h2)

theorem nodup_keys_derase {β : Type} (d : List (Nat × β)) (k : Nat)
    (h : (keys d).Nodup) : (keys (derase d k)).Nodup := by
  induction d with
  | nil => simp [derase, keys]
  | cons hd tl ih =>
      obtain ⟨a, b⟩ := hd
      simp only [keys, List.map_cons, List.nodup_cons] at h
      by_cases hak : a = k
      · simpa [derase, hak, keys] using h.2
      · simp only [derase, if_neg hak, keys, List.map_cons, List.nodup_cons]
        exact ⟨fun hm => h.1 (mem_keys_derase tl k a hm), ih h.2⟩

theorem dlookup_derase_self {β : Type} (d : List (Nat × β)) (k : Nat)
    (h : (keys d).Nodup) : dlookup (derase d k) k = none := by
  induction d with
  | nil => simp [derase, dlookup]
  | cons hd tl ih =>
      obtain ⟨a, b⟩ := hd
      simp only [keys, List.map_cons, List.nodup_cons] at h
      by_cases hak : a = k
      · subst hak
        simp only [derase, if_pos rfl]
        rw [dlookup_eq_none_iff]
        exact h.1
      · simp [derase, hak, dlookup, ih h.2]

theorem dlookup_derase_ne {β : Type} (d : List (Nat × β)) (k x : Nat)
    (hx : x ≠ k) : dlookup (derase d k) x = dlookup d x := by
  induction d with
  | nil => simp [derase]
  | cons hd tl ih =>
      obtain ⟨a, b⟩ := hd
      by_cases hak : a = k
      · subst hak
        simp [derase, dlookup, Ne.symm hx]
      · by_cases hax : a = x
        · subst hax
          simp [derase, hak, dlookup]
        · simp [derase, hak, dlookup, hax, ih]

theorem dlookup_derase_none {β : Type} (d : List (Nat × β)) (k x : Nat)
    (h : dlookup d x = none) : dlookup (derase d k) x = none := by
  by_cases hxk : x = k
  · rw [dlookup_eq_none_iff] at h ⊢
    exact fun hm => h (mem_keys_derase d k x hm)
  · rw [dlookup_derase_ne d k x hxk]
    exact h

theorem dinsert_dinsert_same {β : Type} (d : List (Nat × β)) (k : Nat) (v : β) :
    dinsert (dinsert d k v) k v = dinsert d k v := by
  induction d with
  | nil => simp [dinsert]
  | cons hd tl ih =>
      obtain ⟨a, b⟩ := hd
      by_cases hak : a = k
      · simp [dinsert, hak]
      · simp [dinsert, hak, ih]

theorem mem_sinsert (l : List Nat) (u x : Nat) :
    x ∈ sinsert l u ↔ x = u ∨ x ∈ l := by
  unfold sinsert
  by_cases hu : u ∈ l
  · simp only [if_pos hu]
    constructor
    · exact fun h => Or.inr h
    · rintro (rfl | h)
      · exact hu
      · exact h
  · simp [if_neg hu]

/-- `a ↦ b, b ↦ a` insertion: full lookup characterisation. -/
theorem lookup_cp (d : List (Nat × Nat)) (a b x : Nat) (hab : a ≠ b) :
    dlookup (dinsert (dinsert d a b) b a) x =
      if x = b then some a else if x = a then some b else dlookup d x := by
  by_cases hxb : x = b
  · subst hxb
    simp [dlookup_dinsert_self]
  · rw [dlookup_dinsert_ne _ _ _ _ hxb]
    by_cases hxa : x = a
    · subst hxa
      simp [dlookup_dinsert_self, hxb]
    · rw [dlookup_dinsert_ne _ _ _ _ hxa]
      simp [hxb, hxa]

/-- Double erase (pair break): full lookup characterisation. -/
theorem lookup_bk (d : List (Nat × Nat)) (u p x : Nat) (hn : (keys d).Nodup) :
    dlookup (derase (derase d u) p) x =
      if x = u ∨ x = p then none else dlookup d x := by
  by_cases hxu : x = u
  · subst hxu
    simp only [true_or, if_pos]
    exact dlookup_derase_none _ _ _ (dlookup_derase_self d x hn)
  · by_cases hxp : x = p
    · subst hxp
      simp only [or_true, if_pos]
      exact dlookup_derase_self _ _ (nodup_keys_derase d u hn)
    · rw [dlookup_derase_ne _ _ _ hxp, dlookup_derase_ne _ _ _ hxu]
      simp [hxu, hxp]

/-! ## `tval` and `find_partner` lemmas -/

theorem tval_eq_some {o : Option Nat} {p : Nat} :
    tval o = some p ↔ o = some p ∧ p ≠ 0 := by
  cases o with
  | none => simp [tval]
  | some q =>
      by_cases hq : q = 0
      · subst hq
        simp only [tval, if_pos rfl]
        constructor
        · intro h
          exact absurd h (by simp)
        · rintro ⟨h, hp⟩
          exact absurd (Option.some.inj h).symm hp
      · simp only [tval, if_neg hq, Option.some.injEq]
        constructor
        · rintro rfl
          exact ⟨rfl, hq⟩
        · rintro ⟨h, _⟩
          exact h

theorem tval_none_lookup {d : List (Nat × Nat)} {x : Nat}
    (hpos : ∀ b, dlookup d x = some b → b ≠ 0)
    (h : tval (dlookup d x) = none) : dlookup d x = none := by
  cases hl : dlookup d x with
  | none => rfl
  | some b =>
      exfalso
      rw [hl] at h
      unfold tval at h
      by_cases hb : b = 0
      · exact hpos b hl hb
      · simp [hb] at h

theorem find_partner_mem (q : List (Nat × Nat)) (ex p : Nat)
    (h : find_partner q ex = some p) : ∃ t, (p, t) ∈ q := by
  induction q with
  | nil => simp [find_partner] at h
  | cons hd tl ih =>
      obtain ⟨u, t⟩ := hd
      by_cases hu : u ≠ ex
      · simp only [find_partner, if_pos hu, Option.some.injEq] at h
        subst h
        exact ⟨t, List.mem_cons_self _ _⟩
      · simp only [find_partner, if_neg hu] at h
        obtain ⟨t2, ht2⟩ := ih h
        exact ⟨t2, List.mem_cons_of_mem _ ht2⟩

theorem find_partner_ne (q : List (Nat × Nat)) (ex p : Nat)
    (h : find_partner q ex = some p) : p ≠ ex := by
  induction q with
  | nil => simp [find_partner] at h
  | cons hd tl ih =>
      obtain ⟨u, t⟩ := hd
      by_cases hu : u ≠ ex
      · simp only [find_partner, if_pos hu, Option.some.injEq] at h
        subst h
        exact hu
      · simp only [find_partner, if_neg hu] at h
        exact ih h

theorem is_banned_iff (s : BotS) (u : Nat) : is_banned s u = true ↔ u ∈ s.banned := by
  simp [is_banned]

/-! ## The reachable-state invariant -/

/-- The core invariant of the shared state, over the raw containers:
the pair table is symmetric, duplicate-free and has non-zero partners;
queued users are unpaired, non-zero and unbanned; registered waiting users
are unbanned; report-draft targets are non-zero; draft keys are
duplicate-free.  There is deliberately no banned-users-are-unpaired field:
that property fails on the program, because an orphaned wait task survives
the ban cascade and can pair a banned user (see the C3 theorem below). -/
structure InvC (queue pairs : List (Nat × Nat)) (banned waiting : List Nat)
    (reporting : List (Nat × Nat)) : Prop where
  psymm : ∀ a b, dlookup pairs a = some b → dlookup pairs b = some a
  pnodup : (keys pairs).Nodup
  ppos : ∀ a b, dlookup pairs a = some b → b ≠ 0
  qpos : ∀ e ∈ queue, e.1 ≠ 0
  qfree : ∀ e ∈ queue, dlookup pairs e.1 = none
  qban : ∀ e ∈ queue, e.1 ∉ banned
  wban : ∀ u ∈ waiting, u ∉ banned
  rpos : ∀ u p, dlookup reporting u = some p → p ≠ 0
  rnodup : (keys reporting).Nodup

/-- The invariant, as a predicate on states (events, clock, statuses,
reports and complaint counters are unconstrained). -/
def Inv (s : BotS) : Prop := InvC s.queue s.pairs s.banned s.waiting s.reporting

theorem lookup_bk_some (d : List (Nat × Nat)) (u p x y : Nat)
    (hnd : (keys d).Nodup)
    (h : dlookup (derase (derase d u) p) x = some y) :
    dlookup d x = some y ∧ ¬(x = u ∨ x = p) := by
  rw [lookup_bk d u p x hnd] at h
  by_cases hc : x = u ∨ x = p
  · rw [if_pos hc] at h
    exact absurd h (by simp)
  · rw [if_neg hc] at h
    exact ⟨h, hc⟩

theorem symm_bk (d : List (Nat × Nat)) (u p : Nat)
    (hsymm : ∀ a b, dlookup d a = some b → dlookup d b = some a)
    (hnd : (keys d).Nodup) (hup : dlookup d u = some p) :
    ∀ x y, dlookup (derase (derase d u) p) x = some y →
      dlookup (derase (derase d u) p) y = some x := by
  intro x y hxy
  obtain ⟨hx, hxc⟩ := lookup_bk_some d u p x y hnd hxy
  have hyc : ¬(y = u ∨ y = p) := by
    rintro (rfl | rfl)
    · have h1 := hsymm _ _ hx
      rw [hup] at h1
      exact hxc (Or.inr (Option.some.inj h1).symm)
    · have h1 := hsymm _ _ hx
      have h2 := hsymm _ _ hup
      rw [h2] at h1
      exact hxc (Or.inl (Option.some.inj h1).symm)
  rw [lookup_bk d u p y hnd, if_neg hyc]
  exact hsymm _ _ hx

theorem inv_emit (s : BotS) (e : Ev) (h : Inv s) : Inv (emit s e) := h

theorem inv_match_emit (s : BotS) (o : Option Nat) (f : Nat → Ev) (h : Inv s) :
    Inv (match o with | some p => emit s (f p) | none => s) := by
  cases o with
  | none => exact h
  | some p => exact h

theorem inv_cancel_task (s : BotS) (u : Nat) (h : Inv s) : Inv (cancel_task s u) := by
  obtain ⟨hsymm, hnd, hpos, hqpos, hqfree, hqban, hwban, hrpos, hrnd⟩ := h
  exact ⟨hsymm, hnd, hpos, hqpos, hqfree, hqban,
    fun u2 hm => hwban u2 (List.mem_filter.mp hm).1, hrpos, hrnd⟩

theorem inv_remove_from_queue (s : BotS) (u : Nat) (h : Inv s) :
    Inv (remove_from_queue s u) := by
  obtain ⟨hsymm, hnd, hpos, hqpos, hqfree, hqban, hwban, hrpos, hrnd⟩ := h
  exact ⟨hsymm, hnd, hpos,
    fun e hm => hqpos e (List.mem_filter.mp hm).1,
    fun e hm => hqfree e (List.mem_filter.mp hm).1,
    fun e hm => hqban e (List.mem_filter.mp hm).1,
    hwban, hrpos, hrnd⟩

theorem inv_add_to_queue (s : BotS) (u : Nat) (h0 : u ≠ 0)
    (hfree : dlookup s.pairs u = none) (hban : u ∉ s.banned) (h : Inv s) :
    Inv (add_to_queue s u) := by
  obtain ⟨hsymm, hnd, hpos, hqpos, hqfree, hqban, hwban, hrpos, hrnd⟩ := h
  refine ⟨hsymm, hnd, hpos, ?_, ?_, ?_, hwban, hrpos, hrnd⟩
  · intro e hm
    rcases List.mem_append.mp hm with hm1 | hm2
    · exact hqpos e hm1
    · rw [List.mem_singleton.mp hm2]
      exact h0
  · intro e hm
    rcases List.mem_append.mp hm with hm1 | hm2
    · exact hqfree e hm1
    · rw [List.mem_singleton.mp hm2]
      exact hfree
  · intro e hm
    rcases List.mem_append.mp hm with hm1 | hm2
    · exact hqban e hm1
    · rw [List.mem_singleton.mp hm2]
      exact hban

theorem inv_waiting_add (s : BotS) (u : Nat) (hban : u ∉ s.banned) (h : Inv s) :
    Inv { s with waiting := sinsert s.waiting u } := by
  obtain ⟨hsymm, hnd, hpos, hqpos, hqfree, hqban, hwban, hrpos, hrnd⟩ := h
  refine ⟨hsymm, hnd, hpos, hqpos, hqfree, hqban, ?_, hrpos, hrnd⟩
  intro x hm
  rcases (mem_sinsert s.waiting u x).mp hm with rfl | hx
  · exact hban
  · exact hwban x hx

theorem inv_reporting_derase (s : BotS) (u : Nat) (h : Inv s) :
    Inv { s with reporting := derase s.reporting u } := by
  obtain ⟨hsymm, hnd, hpos, hqpos, hqfree, hqban, hwban, hrpos, hrnd⟩ := h
  refine ⟨hsymm, hnd, hpos, hqpos, hqfree, hqban, hwban, ?_,
    nodup_keys_derase _ _ hrnd⟩
  intro x y hxy
  by_cases hxu : x = u
  · subst hxu
    rw [dlookup_derase_self _ _ hrnd] at hxy
    exact absurd hxy (by simp)
  · rw [dlookup_derase_ne _ _ _ hxu] at hxy
    exact hrpos _ _ hxy

theorem inv_break (s : BotS) (u : Nat) (h : Inv s) : Inv (break_pair s u).1 := by
  unfold break_pair
  cases htv : tval (get_partner s u) with
  | none => exact h
  | some p =>
      obtain ⟨hsymm, hnd, hpos, hqpos, hqfree, hqban, hwban, hrpos, hrnd⟩ := h
      obtain ⟨hup, hp0⟩ := tval_eq_some.mp htv
      have hup2 : dlookup s.pairs u = some p := hup
      refine ⟨symm_bk s.pairs u p hsymm hnd hup2, ?_, ?_, hqpos, ?_, hqban,
        hwban, hrpos, hrnd⟩
      · exact nodup_keys_derase _ _ (nodup_keys_derase _ _ hnd)
      · intro x y hxy
        exact hpos x y (lookup_bk_some _ _ _ _ _ hnd hxy).1
      · intro e hm
        exact dlookup_derase_none _ _ _ (dlookup_derase_none _ _ _ (hqfree e hm))

theorem inv_create (s : BotS) (a b : Nat) (ha : a ≠ 0) (hb : b ≠ 0) (hab : a ≠ b)
    (hpa : dlookup s.pairs a = none) (hpb : dlookup s.pairs b = none)
    (h : Inv s) :
    Inv (create_pair s a b) := by
  obtain ⟨hsymm, hnd, hpos, hqpos, hqfree, hqban, hwban, hrpos, hrnd⟩ := h
  show InvC ((s.queue.filter (fun e => e.1 != a)).filter (fun e => e.1 != b))
    (dinsert (dinsert s.pairs a b) b a) s.banned s.waiting s.reporting
  refine ⟨?_, ?_, ?_, ?_, ?_, ?_, hwban, hrpos, hrnd⟩
  · intro x y hxy
    rw [lookup_cp _ _ _ _ hab] at hxy
    rw [lookup_cp _ _ _ _ hab]
    by_cases hxb : x = b
    · rw [if_pos hxb] at hxy
      have hya : y = a := (Option.some.inj hxy).symm
      rw [if_neg (hya ▸ hab), if_pos hya, hxb]
    · rw [if_neg hxb] at hxy
      by_cases hxa : x = a
      · rw [if_pos hxa] at hxy
        have hyb : y = b := (Option.some.inj hxy).symm
        rw [if_pos hyb, hxa]
      · rw [if_neg hxa] at hxy
        have hyb : y ≠ b := by
          rintro rfl
          rw [hsymm _ _ hxy] at hpb
          exact absurd hpb (by simp)
        have hya : y ≠ a := by
          rintro rfl
          rw [hsymm _ _ hxy] at hpa
          exact absurd hpa (by simp)
        rw [if_neg hyb, if_neg hya]
        exact hsymm _ _ hxy
  · exact nodup_keys_dinsert _ _ _ (nodup_keys_dinsert _ _ _ hnd)
  · intro x y hxy
    rw [lookup_cp _ _ _ _ hab] at hxy
    by_cases hxb : x = b
    · rw [if_pos hxb] at hxy
      rw [← Option.some.inj hxy]
      exact ha
    · rw [if_neg hxb] at hxy
      by_cases hxa : x = a
      · rw [if_pos hxa] at hxy
        rw [← Option.some.inj hxy]
        exact hb
      · rw [if_neg hxa] at hxy
        exact hpos _ _ hxy
  · intro e hm
    simp only [List.mem_filter] at hm
    exact hqpos e hm.1.1
  · intro e hm
    simp only [List.mem_filter, bne_iff_ne] at hm
    rw [lookup_cp _ _ _ _ hab, if_neg hm.2, if_neg hm.1.2]
    exact hqfree e hm.1.1
  · intro e hm
    simp only [List.mem_filter] at hm
    exact hqban e hm.1.1

/-- The state part shared by both ban cascades: ban flag set, waiting task
cancelled, dequeued, pair broken. -/
theorem inv_ban_state (s : BotS) (u : Nat) (h : Inv s) :
    Inv (break_pair
      (remove_from_queue (cancel_task { s with banned := sinsert s.banned u } u) u) u).1 := by
  obtain ⟨hsymm, hnd, hpos, hqpos, hqfree, hqban, hwban, hrpos, hrnd⟩ := h
  unfold break_pair
  cases htv : tval (get_partner
      (remove_from_queue (cancel_task { s with banned := sinsert s.banned u } u) u) u) with
  | none =>
      have hun : dlookup s.pairs u = none :=
        tval_none_lookup (fun b hb => hpos u b hb) htv
      show InvC ((s.queue.filter (fun e => e.1 != u)))
        s.pairs (sinsert s.banned u) (s.waiting.filter (fun x => x != u)) s.reporting
      refine ⟨hsymm, hnd, hpos, ?_, ?_, ?_, ?_, hrpos, hrnd⟩
      · intro e hm
        exact hqpos e (List.mem_filter.mp hm).1
      · intro e hm
        exact hqfree e (List.mem_filter.mp hm).1
      · intro e hm
        have hm2 := List.mem_filter.mp hm
        have hne : e.1 ≠ u := by simpa using hm2.2
        intro hcon
        rcases (mem_sinsert s.banned u e.1).mp hcon with h1 | h2
        · exact hne h1
        · exact hqban e hm2.1 h2
      · intro x hm
        have hm2 := List.mem_filter.mp hm
        have hne : x ≠ u := by simpa using hm2.2
        intro hcon
        rcases (mem_sinsert s.banned u x).mp hcon with h1 | h2
        · exact hne h1
        · exact hwban x hm2.1 h2
  | some p =>
      obtain ⟨hup, hp0⟩ := tval_eq_some.mp htv
      have hup2 : dlookup s.pairs u = some p := hup
      show InvC ((s.queue.filter (fun e => e.1 != u)))
        (derase (derase s.pairs u) p) (sinsert s.banned u)
        (s.waiting.filter (fun x => x != u)) s.reporting
      refine ⟨symm_bk s.pairs u p hsymm hnd hup2,
        nodup_keys_derase _ _ (nodup_keys_derase _ _ hnd), ?_, ?_, ?_, ?_, ?_,
        hrpos, hrnd⟩
      · intro x y hxy
        exact hpos x y (lookup_bk_some _ _ _ _ _ hnd hxy).1
      · intro e hm
        exact hqpos e (List.mem_filter.mp hm).1
      · intro e hm
        exact dlookup_derase_none _ _ _
          (dlookup_derase_none _ _ _ (hqfree e (List.mem_filter.mp hm).1))
      · intro e hm
        have hm2 := List.mem_filter.mp hm
        have hne : e.1 ≠ u := by simpa using hm2.2
        intro hcon
        rcases (mem_sinsert s.banned u e.1).mp hcon with h1 | h2
        · exact hne h1
        · exact hqban e hm2.1 h2
      · intro x hm
        have hm2 := List.mem_filter.mp hm
        have hne : x ≠ u := by simpa using hm2.2
        intro hcon
        rcases (mem_sinsert s.banned u x).mp hcon with h1 | h2
        · exact hne h1
        · exact hwban x hm2.1 h2

theorem inv_ban_complete (s : BotS) (u : Nat) (h : Inv s) :
    Inv (ban_user_complete s u) := by
  unfold ban_user_complete
  exact inv_emit _ _ (inv_match_emit _ _ _ (inv_ban_state s u h))

theorem inv_ban_auto (modId : Nat) (s : BotS) (u : Nat) (h : Inv s) :
    Inv (ban_user_auto modId s u) := by
  unfold ban_user_auto
  by_cases hm : modId ≠ 0
  · rw [if_pos hm]
    exact inv_emit _ _ (inv_emit _ _ (inv_match_emit _ _ _ (inv_ban_state s u h)))
  · rw [if_neg hm]
    exact inv_emit _ _ (inv_match_emit _ _ _ (inv_ban_state s u h))

theorem inv_increment (modId : Nat) (s : BotS) (u : Nat) (h : Inv s) :
    Inv (increment_complaints modId s u).1 := by
  unfold increment_complaints
  simp only []
  split
  · exact inv_ban_auto _ _ _ h
  · exact h

theorem inv_search (s : BotS) (u : Nat) (sub : Bool) (h0 : u ≠ 0) (h : Inv s) :
    Inv (search_for_user s u sub) := by
  unfold search_for_user
  by_cases hb : is_banned s u = true
  · rw [if_pos hb]
    exact inv_emit _ _ h
  · rw [if_neg hb]
    by_cases hp : (tval (get_partner s u)).isSome = true
    · rw [if_pos hp]
      exact inv_emit _ _ h
    · rw [if_neg hp]
      by_cases hs : (!sub) = true
      · rw [if_pos hs]
        exact inv_emit _ _ h
      · rw [if_neg hs]
        have hfree : dlookup s.pairs u = none := by
          have hnone : tval (get_partner s u) = none :=
            Option.not_isSome_iff_eq_none.mp (by simpa using hp)
          exact tval_none_lookup (fun b hb2 => h.ppos u b hb2) hnone
        have hban : u ∉ s.banned := fun hc => hb ((is_banned_iff s u).mpr hc)
        exact inv_waiting_add _ _ hban (inv_emit _ _ (inv_add_to_queue s u h0 hfree hban h))

theorem inv_tick (s : BotS) (u : Nat) (h0 : u ≠ 0) (_hw : u ∈ s.waiting) (h : Inv s) :
    Inv (wait_tick s u) := by
  unfold wait_tick
  by_cases hp : (tval (get_partner s u)).isSome = true
  · rw [if_pos hp]
    exact inv_cancel_task _ _ h
  · rw [if_neg hp]
    cases hf : find_partner s.queue u with
    | none => exact h
    | some p =>
        have hpu : p ≠ u := find_partner_ne _ _ _ hf
        obtain ⟨t, htq⟩ := find_partner_mem _ _ _ hf
        have hp0 : p ≠ 0 := h.qpos (p, t) htq
        have hufree : dlookup s.pairs u = none := by
          have hnone : tval (get_partner s u) = none :=
            Option.not_isSome_iff_eq_none.mp (by simpa using hp)
          exact tval_none_lookup (fun b hb2 => h.ppos u b hb2) hnone
        have hpfree : dlookup s.pairs p = none := h.qfree (p, t) htq
        exact inv_cancel_task _ _ (inv_emit _ _ (inv_emit _ _
          (inv_create s u p h0 hp0 (Ne.symm hpu) hufree hpfree h)))

theorem inv_timeout (s : BotS) (u : Nat) (h : Inv s) : Inv (wait_timeout s u) := by
  unfold wait_timeout
  exact inv_emit _ _ (inv_cancel_task _ _ (inv_remove_from_queue _ _ h))

theorem inv_orphan_exit (s : BotS) (u : Nat) (h : Inv s) : Inv (orphan_exit s u) := by
  obtain ⟨hsymm, hnd, hpos, hqpos, hqfree, hqban, hwban, hrpos, hrnd⟩ := h
  exact ⟨hsymm, hnd, hpos, hqpos, hqfree, hqban,
    fun u2 hm => hwban u2 (List.mem_filter.mp hm).1, hrpos, hrnd⟩

theorem inv_orphan_tick (s : BotS) (u : Nat) (h0 : u ≠ 0) (h : Inv s) :
    Inv (orphan_tick s u) := by
  unfold orphan_tick
  by_cases hp : (tval (get_partner s u)).isSome = true
  · rw [if_pos hp]
    exact inv_orphan_exit _ _ h
  · rw [if_neg hp]
    cases hf : find_partner s.queue u with
    | none => exact h
    | some p =>
        have hpu : p ≠ u := find_partner_ne _ _ _ hf
        obtain ⟨t, htq⟩ := find_partner_mem _ _ _ hf
        have hp0 : p ≠ 0 := h.qpos (p, t) htq
        have hufree : dlookup s.pairs u = none := by
          have hnone : tval (get_partner s u) = none :=
            Option.not_isSome_iff_eq_none.mp (by simpa using hp)
          exact tval_none_lookup (fun b hb2 => h.ppos u b hb2) hnone
        have hpfree : dlookup s.pairs p = none := h.qfree (p, t) htq
        exact inv_orphan_exit _ _ (inv_emit _ _ (inv_emit _ _
          (inv_create s u p h0 hp0 (Ne.symm hpu) hufree hpfree h)))

theorem inv_orphan_timeout (s : BotS) (u : Nat) (h : Inv s) :
    Inv (orphan_timeout s u) := by
  unfold orphan_timeout
  exact inv_emit _ _ (inv_orphan_exit _ _ (inv_remove_from_queue _ _ h))

theorem inv_stop (s : BotS) (u : Nat) (h : Inv s) : Inv (stop_cmd s u) := by
  unfold stop_cmd
  exact inv_emit _ _ (inv_match_emit _ _ _ (inv_break _ _ (inv_cancel_task _ _ h)))

theorem inv_cancel_cmd (s : BotS) (u : Nat) (h : Inv s) : Inv (cancel_cmd s u) := by
  unfold cancel_cmd
  exact inv_emit _ _ (inv_remove_from_queue _ _ (inv_cancel_task _ _ h))

theorem inv_next (s : BotS) (u : Nat) (sub1 sub2 : Bool) (h0 : u ≠ 0) (h : Inv s) :
    Inv (next_cmd s u sub1 sub2) := by
  unfold next_cmd
  cases hm : tval (get_partner s u) with
  | none => exact inv_search _ _ _ h0 (inv_stop _ _ h)
  | some p =>
      obtain ⟨hup, hp0⟩ := tval_eq_some.mp hm
      exact inv_search _ _ _ h0 (inv_search _ _ _ hp0 (inv_stop _ _ h))

theorem inv_report_cmd (s : BotS) (u : Nat) (h : Inv s) : Inv (report_cmd s u) := by
  unfold report_cmd
  cases hm : tval (get_partner s u) with
  | none => exact inv_emit _ _ h
  | some p =>
      obtain ⟨hup, hp0⟩ := tval_eq_some.mp hm
      obtain ⟨hsymm, hnd, hpos, hqpos, hqfree, hqban, hwban, hrpos, hrnd⟩ := h
      refine inv_emit _ _ ?_
      refine ⟨hsymm, hnd, hpos, hqpos, hqfree, hqban, hwban, ?_,
        nodup_keys_dinsert _ _ _ hrnd⟩
      intro x y hxy
      by_cases hxu : x = u
      · rw [hxu, dlookup_dinsert_self] at hxy
        rw [← Option.some.inj hxy]
        exact hp0
      · rw [dlookup_dinsert_ne _ _ _ _ hxu] at hxy
        exact hrpos _ _ hxy

theorem inv_cancel_report (s : BotS) (u : Nat) (h : Inv s) : Inv (cancel_report s u) := by
  unfold cancel_report
  split
  · exact inv_emit _ _ (inv_reporting_derase _ _ h)
  · exact h

theorem inv_report_reason (modId : Nat) (s : BotS) (u : Nat) (txt : String)
    (h : Inv s) : Inv (report_reason modId s u txt) := by
  unfold report_reason
  cases hm : dlookup s.reporting u with
  | none => exact h
  | some p =>
      simp only []
      by_cases hp0 : p = 0
      · rw [if_pos hp0]
        exact inv_reporting_derase _ _ h
      · rw [if_neg hp0]
        have h1 : Inv { s with reporting := derase s.reporting u } :=
          inv_reporting_derase _ _ h
        by_cases hmod : modId ≠ 0
        · rw [if_pos hmod]
          exact inv_emit _ _ (inv_emit _ _ (inv_emit _ _
            (inv_break _ _ (inv_increment _ _ _ h1))))
        · rw [if_neg hmod]
          exact inv_emit _ _ (inv_emit _ _
            (inv_break _ _ (inv_increment _ _ _ h1)))

theorem inv_relay (s : BotS) (u : Nat) (c : Content) (ok : Bool) (h : Inv s) :
    Inv (relay s u c ok) := by
  unfold relay
  split
  · exact h
  · cases hm : tval (get_partner s u) with
    | none => exact h
    | some p =>
        simp only []
        by_cases hok : ok = true
        · rw [if_pos hok]
          cases c with
          | ctext t =>
              simp only []
              by_cases ht : t = ""
              · rw [if_pos ht]
                exact inv_emit _ _ h
              · rw [if_neg ht]
                exact inv_emit _ _ h
          | photo => exact inv_emit _ _ h
          | sticker => exact inv_emit _ _ h
          | voice => exact inv_emit _ _ h
          | document => exact inv_emit _ _ h
          | video => exact inv_emit _ _ h
          | other => exact inv_emit _ _ h
        · rw [if_neg hok]
          exact inv_emit _ _ (inv_break _ _ h)

theorem inv_start (s : BotS) (u : Nat) (sub : Bool) (h : Inv s) :
    Inv (start_cmd s u sub) := by
  unfold start_cmd
  have h1 : Inv { s with status := dinsert s.status u Status.idle } := h
  by_cases hs : sub = true
  · rw [if_pos hs]
    exact inv_emit _ _ (inv_remove_from_queue _ _ (inv_break _ _ h1))
  · rw [if_neg hs]
    exact inv_emit _ _ (inv_remove_from_queue _ _ (inv_break _ _ h1))

theorem inv_unban (s : BotS) (u : Nat) (h : Inv s) : Inv (unban_cmd s u) := by
  obtain ⟨hsymm, hnd, hpos, hqpos, hqfree, hqban, hwban, hrpos, hrnd⟩ := h
  exact ⟨hsymm, hnd, hpos, hqpos, hqfree,
    fun e hm hc => hqban e hm (List.mem_filter.mp hc).1,
    fun x hm hc => hwban x hm (List.mem_filter.mp hc).1,
    hrpos, hrnd⟩

theorem inv_ignore (s : BotS) (rid : Nat) (h : Inv s) : Inv (ignore_report s rid) := h

theorem inv_step {modId : Nat} {s t : BotS} (h : Inv s) (hs : Step modId s t) :
    Inv t := by
  cases hs with
  | start u sub h0 => exact inv_start s u sub h
  | search u sub h0 => exact inv_search s u sub h0 h
  | tick u h0 hw => exact inv_tick s u h0 hw h
  | timeout u h0 hw => exact inv_timeout s u h
  | otick u h0 hw => exact inv_orphan_tick s u h0 h
  | otimeout u h0 hw => exact inv_orphan_timeout s u h
  | stop u h0 => exact inv_stop s u h
  | cancel u h0 => exact inv_cancel_cmd s u h
  | next u sub1 sub2 h0 => exact inv_next s u sub1 sub2 h0 h
  | report u h0 => exact inv_report_cmd s u h
  | creport u h0 => exact inv_cancel_report s u h
  | reason u txt h0 => exact inv_report_reason modId s u txt h
  | msg u c ok h0 => exact inv_relay s u c ok h
  | ban u h0 => exact inv_ban_complete s u h
  | unban u h0 => exact inv_unban s u h
  | ignore rid => exact inv_ignore s rid h

theorem inv_init : Inv init := by
  refine ⟨?_, ?_, ?_, ?_, ?_, ?_, ?_, ?_, ?_⟩ <;>
    simp [init, dlookup, keys]

theorem inv_reachable {modId : Nat} {s : BotS} (h : Reachable modId s) : Inv s := by
  induction h with
  | init => exact inv_init
  | step hr hs ih => exact inv_step ih hs

/-! ## Execution lemmas -/

theorem tval_some_of_ne (p : Nat) (h : p ≠ 0) : tval (some p) = some p := by
  simp [tval, h]

theorem break_pair_eq_some (s : BotS) (u p : Nat)
    (h : tval (get_partner s u) = some p) :
    break_pair s u =
      ({ s with pairs := derase (derase s.pairs u) p,
                status := dinsert (dinsert s.status u .idle) p .idle }, some p) := by
  unfold break_pair
  rw [h]

theorem break_pair_eq_none (s : BotS) (u : Nat)
    (h : tval (get_partner s u) = none) : break_pair s u = (s, none) := by
  unfold break_pair
  rw [h]

theorem break_pair_reporting (s : BotS) (u : Nat) :
    (break_pair s u).1.reporting = s.reporting := by
  unfold break_pair
  cases tval (get_partner s u) with
  | none => rfl
  | some p => rfl

theorem break_pair_queue (s : BotS) (u : Nat) :
    (break_pair s u).1.queue = s.queue := by
  unfold break_pair
  cases tval (get_partner s u) with
  | none => rfl
  | some p => rfl

theorem break_pair_reports (s : BotS) (u : Nat) :
    (break_pair s u).1.reports = s.reports := by
  unfold break_pair
  cases tval (get_partner s u) with
  | none => rfl
  | some p => rfl

theorem break_pair_complaints (s : BotS) (u : Nat) :
    (break_pair s u).1.complaints = s.complaints := by
  unfold break_pair
  cases tval (get_partner s u) with
  | none => rfl
  | some p => rfl

theorem break_pair_events (s : BotS) (u : Nat) :
    (break_pair s u).1.events = s.events := by
  unfold break_pair
  cases tval (get_partner s u) with
  | none => rfl
  | some p => rfl

/-! ## Concrete traces used as witnesses -/

/-- User 1 starts a search from the empty state. -/
def ex1 : BotS := search_for_user init 1 true

/-- User 2 starts a search as well. -/
def ex2 : BotS := search_for_user ex1 2 true

/-- User 2's polling task fires and pairs 2 with 1. -/
def ex3 : BotS := wait_tick ex2 2

/-- User 1 opens a report draft against their partner 2. -/
def ex4 : BotS := report_cmd ex3 1

/-- User 2 stops the chat while 1's report draft is still open. -/
def ex5 : BotS := stop_cmd ex4 2

theorem reach_ex1 (m : Nat) : Reachable m ex1 :=
  Reachable.step Reachable.init (Step.search init 1 true (by decide))

theorem reach_ex2 (m : Nat) : Reachable m ex2 :=
  Reachable.step (reach_ex1 m) (Step.search ex1 2 true (by decide))

theorem reach_ex3 (m : Nat) : Reachable m ex3 :=
  Reachable.step (reach_ex2 m) (Step.tick ex2 2 (by decide) (by decide))

theorem reach_ex4 (m : Nat) : Reachable m ex4 :=
  Reachable.step (reach_ex3 m) (Step.report ex3 1 (by decide))

theorem reach_ex5 (m : Nat) : Reachable m ex5 :=
  Reachable.step (reach_ex4 m) (Step.stop ex4 2 (by decide))

/-! ## Claims -/

/-- C3 failing trace, step 1: user 1 searches (a wait task is registered). -/
def c3a : BotS := search_for_user init 1 true

/-- Step 2: user 1 searches again — the dict overwrite
`waiting_tasks[1] = task` registers a new task and orphans the old one
without cancelling it. -/
def c3b : BotS := search_for_user c3a 1 true

/-- Step 3: the moderator bans user 1 — the cascade cancels the registered
task and clears the queue entries, but the orphan survives. -/
def c3c : BotS := ban_user_complete c3b 1

/-- Step 4: user 2 starts searching. -/
def c3d : BotS := search_for_user c3c 2 true

/-- Step 5: the orphaned wait task of the (now banned) user 1 polls once:
its loop body re-checks neither `is_banned` nor `waiting_tasks`, finds
user 2 in the queue and calls `create_pair`. -/
def c3s : BotS := orphan_tick c3d 1

theorem reach_c3s : Reachable 0 c3s :=
  Reachable.step (Reachable.step (Reachable.step (Reachable.step (Reachable.step
    Reachable.init
    (Step.search init 1 true (by decide)))
    (Step.search c3a 1 true (by decide)))
    (Step.ban c3b 1 (by decide)))
    (Step.search c3c 2 true (by decide)))
    (Step.otick c3d 1 (by decide) (by decide))

/-- C3 (code bug): a banned participant can re-enter the pair table.  A
repeat search's `waiting_tasks[uid] = task` overwrite leaks the previous
wait task; `ban_user_complete` cancels only the dict-registered task, so
the leaked orphan keeps polling and pairs the banned user with the next
searcher: in the reachable state `c3s`, user 1 is banned yet paired with
user 2 (and the banned-never-in-queue half of the claim, which does hold,
is a consequence of the `qban` invariant above).  The claim — and the
spec's cascade requirement to cancel any in-flight search and its
ban/pairing linearizability requirement — say this must never happen. -/
theorem C3_orphan_task_pairs_banned_user :
    Reachable 0 c3s ∧
    1 ∈ c3s.banned ∧
    get_partner c3s 1 = some 2 ∧
    get_partner c3s 2 = some 1 :=
  ⟨reach_c3s, by decide, by decide, by decide⟩

/-- C4: in every reachable state the pair table is symmetric —
`get_partner a = some b` iff `get_partner b = some a` — and, being a
key-to-value map, it assigns at most one partner per participant; the
property is preserved by every step, in particular pair creation and pair
breaking. -/
theorem C4_pair_table_symmetric (modId : Nat) (s : BotS)
    (hr : Reachable modId s) (a b : Nat) :
    get_partner s a = some b ↔ get_partner s b = some a := by
  have h := inv_reachable hr
  exact ⟨fun hab => h.psymm a b hab, fun hba => h.psymm b a hba⟩

theorem C4_witness :
    get_partner ex3 1 = some 2 ↔ get_partner ex3 2 = some 1 :=
  C4_pair_table_symmetric 99 ex3 (reach_ex3 99) 1 2

/-- User 1, already searching, issues a second search (in-memory mode). -/
def c5s : BotS := search_for_user (search_for_user init 1 true) 1 true

/-- C5 (code bug): in the in-memory branch, `add_to_queue` appends
unconditionally, so a second search request by an already-searching user
creates a second queue entry — `c5s` is reachable and holds user 1 twice —
whereas the database branch of the same function
(`INSERT ... ON CONFLICT DO NOTHING` against a `PRIMARY KEY` column) keeps
at most one entry, as the claim states. -/
theorem C5_memory_queue_duplicate_entry :
    Reachable 0 c5s ∧
    c5s.queue.countP (fun e => e.1 == 1) = 2 ∧
    (db_add_to_queue (db_add_to_queue [] 1) 1) = [1] :=
  ⟨Reachable.step (reach_ex1 0) (Step.search ex1 1 true (by decide)),
   by decide, by decide⟩

theorem find_partner_eq_find (q : List (Nat × Nat)) (ex : Nat) :
    find_partner q ex = (q.find? (fun e => e.1 != ex)).map Prod.fst := by
  induction q with
  | nil => rfl
  | cons hd tl ih =>
      obtain ⟨u, t⟩ := hd
      by_cases hu : u ≠ ex
      · rw [List.find?_cons_of_pos _ (by simpa using hu)]
        simp [find_partner, hu]
      · rw [List.find?_cons_of_neg _ (by simpa using hu)]
        simp only [find_partner, if_neg hu]
        exact ih

theorem find_partner_none_iff (q : List (Nat × Nat)) (ex : Nat) :
    find_partner q ex = none ↔ ∀ e ∈ q, e.1 = ex := by
  induction q with
  | nil => simp [find_partner]
  | cons hd tl ih =>
      obtain ⟨u, t⟩ := hd
      by_cases hu : u ≠ ex
      · simp only [find_partner, if_pos hu]
        constructor
        · intro h
          exact absurd h (by simp)
        · intro h
          exact absurd (h (u, t) (List.mem_cons_self _ _)) hu
      · have hu2 : u = ex := not_not.mp hu
        simp only [find_partner, if_neg hu]
        rw [ih]
        constructor
        · intro h e he
          rcases List.mem_cons.mp he with rfl | hm
          · exact hu2
          · exact h e hm
        · intro h e he
          exact h e (List.mem_cons_of_mem _ he)

theorem find_partner_earliest (q : List (Nat × Nat)) (ex p : Nat)
    (h : find_partner q ex = some p) :
    p ≠ ex ∧ ∃ t q1 q2, q = q1 ++ (p, t) :: q2 ∧ ∀ e ∈ q1, e.1 = ex := by
  induction q with
  | nil => simp [find_partner] at h
  | cons hd tl ih =>
      obtain ⟨u, t⟩ := hd
      by_cases hu : u ≠ ex
      · simp only [find_partner, if_pos hu, Option.some.injEq] at h
        subst h
        exact ⟨hu, t, [], tl, by simp, by simp⟩
      · have hu2 : u = ex := not_not.mp hu
        simp only [find_partner, if_neg hu] at h
        obtain ⟨hne, t2, q1, q2, heq, hall⟩ := ih h
        refine ⟨hne, t2, (u, t) :: q1, q2, by rw [heq]; rfl, ?_⟩
        intro e he
        rcases List.mem_cons.mp he with rfl | hm
        · exact hu2
        · exact hall e hm

/-- C6: the partner lookup returns the first queue entry (insertion order,
which is enqueue order) whose id differs from the requester, never the
requester themself, and `none` exactly when every queued entry is the
requester. -/
theorem C6_find_partner_rule (q : List (Nat × Nat)) (ex : Nat) :
    find_partner q ex = (q.find? (fun e => e.1 != ex)).map Prod.fst ∧
    (find_partner q ex = none ↔ ∀ e ∈ q, e.1 = ex) ∧
    (∀ p, find_partner q ex = some p →
      p ≠ ex ∧ ∃ t q1 q2, q = q1 ++ (p, t) :: q2 ∧ ∀ e ∈ q1, e.1 = ex) :=
  ⟨find_partner_eq_find q ex, find_partner_none_iff q ex,
   fun p h => find_partner_earliest q ex p h⟩

theorem C6_witness :
    find_partner [(5, 0), (1, 1), (2, 2)] 5 = some 1 ∧ ((1 : Nat) ≠ 5 ∧
      ∃ t q1 q2, [(5, 0), (1, 1), (2, 2)] = q1 ++ (1, t) :: q2 ∧
        ∀ e ∈ q1, e.1 = 5) :=
  ⟨rfl, (C6_find_partner_rule [(5, 0), (1, 1), (2, 2)] 5).2.2 1 rfl⟩

/-- C7 counterexample: in the reachable state `ex3` user 1's search has
resolved into the pair 1↔2, yet the cancel handler is not a no-op on the
shared state — it resets user 1's status (from chatting to idle), because
`cancel` unconditionally calls `remove_from_queue`, which always writes
`memory_status[uid] = idle`. -/
theorem C7_counterexample :
    Reachable 0 ex3 ∧ get_partner ex3 1 = some 2 ∧
    (cancel_cmd ex3 1).status ≠ ex3.status :=
  ⟨reach_ex3 0, by decide, by decide⟩

/-- Equality of everything except the clock and the outgoing-message log. -/
def sameCore (a b : BotS) : Prop :=
  a.queue = b.queue ∧ a.pairs = b.pairs ∧ a.status = b.status ∧
  a.banned = b.banned ∧ a.reports = b.reports ∧ a.complaints = b.complaints ∧
  a.reporting = b.reporting ∧ a.waiting = b.waiting ∧ a.orphans = b.orphans

theorem filter_idem {α : Type} (p : α → Bool) (l : List α) :
    (l.filter p).filter p = l.filter p := by
  induction l with
  | nil => rfl
  | cons hd tl ih =>
      by_cases hp : p hd = true
      · simp [List.filter_cons, hp, ih]
      · simp [List.filter_cons, hp, ih]

/-- C7 amended: cancelling never breaks a pair and removes only the
canceller's own queue entry and waiting task, and cancelling twice in a row
equals cancelling once on all non-log state — but the handler
unconditionally resets the canceller's recorded status to idle, so for a
participant whose search has already resolved into a pair the status does
change (the pair itself survives). -/
theorem C7_cancel_amended (s : BotS) (u : Nat) :
    (cancel_cmd s u).pairs = s.pairs ∧
    (cancel_cmd s u).queue = s.queue.filter (fun e => e.1 != u) ∧
    (cancel_cmd s u).status = dinsert s.status u .idle ∧
    (cancel_cmd s u).waiting = s.waiting.filter (fun x => x != u) ∧
    sameCore (cancel_cmd (cancel_cmd s u) u) (cancel_cmd s u) :=
  ⟨rfl, rfl, rfl, rfl,
   filter_idem _ _, rfl, dinsert_dinsert_same _ _ _, rfl, rfl, rfl, rfl,
   filter_idem _ _, rfl⟩

/-- C8 counterexample: `ex5` is reachable — 1 and 2 were paired, 1 opened a
report draft, then 2 stopped the chat — and in it participant 1 still holds
a pending report draft while having no active pair: a pair break does not
discard outstanding drafts. -/
theorem C8_counterexample :
    Reachable 0 ex5 ∧ dlookup ex5.reporting 1 = some 2 ∧
    get_partner ex5 1 = none :=
  ⟨reach_ex5 0, by decide, by decide⟩

/-- C8 amended: a pair break of any cause — explicit stop, search timeout,
a ban, or the underlying `break_pair` itself — leaves the report-draft
table untouched; a draft therefore survives the break and persists until
the reporter submits a reason or explicitly cancels the report. -/
theorem C8_break_keeps_draft (s : BotS) (u : Nat) :
    (stop_cmd s u).reporting = s.reporting ∧
    (wait_timeout s u).reporting = s.reporting ∧
    (orphan_timeout s u).reporting = s.reporting ∧
    (ban_user_complete s u).reporting = s.reporting ∧
    (break_pair s u).1.reporting = s.reporting := by
  refine ⟨?_, rfl, rfl, ?_, break_pair_reporting s u⟩
  · unfold stop_cmd
    simp only []
    cases (break_pair (cancel_task s u) u).2 <;>
      simp [emit, cancel_task, break_pair_reporting]
  · unfold ban_user_complete
    simp only []
    cases (break_pair
        (remove_from_queue (cancel_task { s with banned := sinsert s.banned u } u) u) u).2 <;>
      simp [emit, cancel_task, remove_from_queue, break_pair_reporting]

theorem ban_auto_reports (m : Nat) (t : BotS) (v : Nat) :
    (ban_user_auto m t v).reports = t.reports := by
  unfold ban_user_auto
  simp only []
  split <;>
    cases (break_pair
        (remove_from_queue (cancel_task { t with banned := sinsert t.banned v } v) v) v).2 <;>
      simp [emit, cancel_task, remove_from_queue, break_pair_reports]

theorem increment_reports (m : Nat) (t : BotS) (v : Nat) :
    (increment_complaints m t v).1.reports = t.reports := by
  unfold increment_complaints
  simp only []
  split
  · rw [ban_auto_reports]
  · rfl

/-- C10: while a sender has an outstanding report draft the relay handler
is an exact no-op — nothing is forwarded, no pairing state changes, no
message is emitted — and the text they send is consumed by `report_reason`
as the reason of the recorded report against the draft target instead. -/
theorem C10_draft_blocks_relay (modId : Nat) (s : BotS) (u p : Nat)
    (c : Content) (ok : Bool) (txt : String)
    (hr : Reachable modId s)
    (hd : dlookup s.reporting u = some p) :
    relay s u c ok = s ∧
    (report_reason modId s u txt).reports =
      s.reports ++ [⟨s.reports.length + 1, u, p,
        (if txt = "" then "Без причины" else txt), false⟩] := by
  have h := inv_reachable hr
  have hp0 : p ≠ 0 := h.rpos u p hd
  constructor
  · unfold relay
    rw [if_pos (show (dlookup s.reporting u).isSome = true by rw [hd]; rfl)]
  · unfold report_reason
    rw [hd]
    simp only []
    rw [if_neg hp0]
    split <;> simp [emit, break_pair_reports, increment_reports]

theorem C10_witness :
    relay ex4 1 (Content.ctext "hello") true = ex4 ∧
    (report_reason 99 ex4 1 "spam").reports =
      ex4.reports ++ [⟨ex4.reports.length + 1, 1, 2,
        (if "spam" = "" then "Без причины" else "spam"), false⟩] :=
  C10_draft_blocks_relay 99 ex4 1 2 (Content.ctext "hello") true "spam"
    (reach_ex4 99) (by decide)

/-! ## Projection and conditional-equation lemmas -/

theorem emit_pairs (t : BotS) (e : Ev) : (emit t e).pairs = t.pairs := rfl

theorem emit_complaints (t : BotS) (e : Ev) : (emit t e).complaints = t.complaints := rfl

theorem emit_reporting (t : BotS) (e : Ev) : (emit t e).reporting = t.reporting := rfl

theorem emit_banned (t : BotS) (e : Ev) : (emit t e).banned = t.banned := rfl

theorem emit_queue (t : BotS) (e : Ev) : (emit t e).queue = t.queue := rfl

theorem emit_events (t : BotS) (e : Ev) : (emit t e).events = t.events ++ [e] := rfl

theorem ite_emit_pairs (c : Prop) [Decidable c] (t : BotS) (e : Ev) :
    (if c then emit t e else t).pairs = t.pairs := by
  split <;> rfl

theorem ite_emit_complaints (c : Prop) [Decidable c] (t : BotS) (e : Ev) :
    (if c then emit t e else t).complaints = t.complaints := by
  split <;> rfl

theorem ite_emit_reporting (c : Prop) [Decidable c] (t : BotS) (e : Ev) :
    (if c then emit t e else t).reporting = t.reporting := by
  split <;> rfl

theorem ite_emit_banned (c : Prop) [Decidable c] (t : BotS) (e : Ev) :
    (if c then emit t e else t).banned = t.banned := by
  split <;> rfl

theorem ite_emit_queue (c : Prop) [Decidable c] (t : BotS) (e : Ev) :
    (if c then emit t e else t).queue = t.queue := by
  split <;> rfl

theorem mem_emit_events (t : BotS) (e x : Ev) (h : x ∈ t.events) :
    x ∈ (emit t e).events :=
  List.mem_append_left _ h

theorem mem_ite_emit_events (c : Prop) [Decidable c] (t : BotS) (e x : Ev)
    (h : x ∈ t.events) : x ∈ (if c then emit t e else t).events := by
  split
  · exact List.mem_append_left _ h
  · exact h

theorem break_pair_snd (t : BotS) (v : Nat) :
    (break_pair t v).2 = tval (get_partner t v) := by
  unfold break_pair
  cases tval (get_partner t v) with
  | none => rfl
  | some w => rfl

theorem break_pair_lookup (t : BotS) (v x : Nat) (hnd : (keys t.pairs).Nodup) :
    dlookup (break_pair t v).1.pairs x =
      match tval (get_partner t v) with
      | some w => if x = v ∨ x = w then none else dlookup t.pairs x
      | none => dlookup t.pairs x := by
  unfold break_pair
  cases tval (get_partner t v) with
  | none => rfl
  | some w =>
      simp only []
      exact lookup_bk t.pairs v w x hnd

theorem ban_auto_lookup (m : Nat) (t : BotS) (v x : Nat)
    (hnd : (keys t.pairs).Nodup) :
    dlookup (ban_user_auto m t v).pairs x =
      match tval (dlookup t.pairs v) with
      | some w => if x = v ∨ x = w then none else dlookup t.pairs x
      | none => dlookup t.pairs x := by
  unfold ban_user_auto
  simp only []
  split <;>
  · split
    · rename_i w heq
      rw [break_pair_snd] at heq
      have heq2 : tval (dlookup t.pairs v) = some w := heq
      rw [break_pair_eq_some _ _ _ heq, heq2]
      simp only []
      exact lookup_bk t.pairs v w x hnd
    · rename_i heq
      rw [break_pair_snd] at heq
      have heq2 : tval (dlookup t.pairs v) = none := heq
      rw [break_pair_eq_none _ _ heq, heq2]
      rfl

theorem ban_auto_complaints (m : Nat) (t : BotS) (v : Nat) :
    (ban_user_auto m t v).complaints = t.complaints := by
  unfold ban_user_auto
  simp only []
  split <;>
  · split
    · rename_i w heq
      rw [break_pair_eq_some _ _ _ (break_pair_snd _ _ ▸ heq)]
      rfl
    · rename_i heq
      rw [break_pair_eq_none _ _ (break_pair_snd _ _ ▸ heq)]
      rfl

theorem ban_auto_reporting (m : Nat) (t : BotS) (v : Nat) :
    (ban_user_auto m t v).reporting = t.reporting := by
  unfold ban_user_auto
  simp only []
  split <;>
  · split
    · rename_i w heq
      rw [break_pair_eq_some _ _ _ (break_pair_snd _ _ ▸ heq)]
      rfl
    · rename_i heq
      rw [break_pair_eq_none _ _ (break_pair_snd _ _ ▸ heq)]
      rfl

theorem ban_auto_banned (m : Nat) (t : BotS) (v : Nat) :
    (ban_user_auto m t v).banned = sinsert t.banned v := by
  unfold ban_user_auto
  simp only []
  split <;>
  · split
    · rename_i w heq
      rw [break_pair_eq_some _ _ _ (break_pair_snd _ _ ▸ heq)]
      rfl
    · rename_i heq
      rw [break_pair_eq_none _ _ (break_pair_snd _ _ ▸ heq)]
      rfl

theorem ban_auto_queue (m : Nat) (t : BotS) (v : Nat) :
    (ban_user_auto m t v).queue = t.queue.filter (fun e => e.1 != v) := by
  unfold ban_user_auto
  simp only []
  split <;>
  · split
    · rename_i w heq
      rw [break_pair_eq_some _ _ _ (break_pair_snd _ _ ▸ heq)]
      rfl
    · rename_i heq
      rw [break_pair_eq_none _ _ (break_pair_snd _ _ ▸ heq)]
      rfl

theorem ban_auto_events_partner (m : Nat) (t : BotS) (v w : Nat)
    (h : tval (dlookup t.pairs v) = some w) :
    Ev.partnerLeft w ∈ (ban_user_auto m t v).events := by
  unfold ban_user_auto
  simp only []
  have h2 : tval (get_partner
      (remove_from_queue (cancel_task { t with banned := sinsert t.banned v } v) v) v)
      = some w := h
  rw [break_pair_eq_some _ _ _ h2]
  simp only []
  apply mem_ite_emit_events
  apply mem_emit_events
  exact List.mem_append_right _ (List.mem_singleton_self _)

theorem ban_auto_events_mod (m : Nat) (t : BotS) (v : Nat) (hm : m ≠ 0) :
    Ev.modAutoBan m v ∈ (ban_user_auto m t v).events := by
  unfold ban_user_auto
  simp only []
  rw [if_pos hm]
  split
  · exact List.mem_append_right _ (List.mem_singleton_self _)
  · exact List.mem_append_right _ (List.mem_singleton_self _)

theorem ban_auto_nodup (m : Nat) (t : BotS) (v : Nat)
    (hnd : (keys t.pairs).Nodup) :
    (keys (ban_user_auto m t v).pairs).Nodup := by
  unfold ban_user_auto
  simp only []
  split <;>
  · split
    · rename_i w heq
      rw [break_pair_eq_some _ _ _ (break_pair_snd _ _ ▸ heq)]
      exact nodup_keys_derase _ _ (nodup_keys_derase _ _ hnd)
    · rename_i heq
      rw [break_pair_eq_none _ _ (break_pair_snd _ _ ▸ heq)]
      exact hnd

theorem increment_eq_of_ge (m : Nat) (t : BotS) (v : Nat)
    (h5 : 5 ≤ complaintGet t v + 1) (hb : v ∉ t.banned) :
    (increment_complaints m t v).1 =
      ban_user_auto m { t with complaints := dinsert t.complaints v (complaintGet t v + 1) } v := by
  unfold increment_complaints
  simp only []
  rw [if_pos]
  constructor
  · exact h5
  · simpa [is_banned] using hb

theorem increment_eq_of_noban (m : Nat) (t : BotS) (v : Nat)
    (h : ¬(5 ≤ complaintGet t v + 1 ∧ v ∉ t.banned)) :
    (increment_complaints m t v).1 =
      { t with complaints := dinsert t.complaints v (complaintGet t v + 1) } := by
  unfold increment_complaints
  simp only []
  rw [if_neg]
  intro hc
  apply h
  refine ⟨hc.1, ?_⟩
  have hb2 : is_banned t v = false := hc.2
  simpa [is_banned] using hb2

theorem increment_eq_of_banned (m : Nat) (t : BotS) (v : Nat) (h : v ∈ t.banned) :
    (increment_complaints m t v).1 =
      { t with complaints := dinsert t.complaints v (complaintGet t v + 1) } :=
  increment_eq_of_noban m t v (fun hc => hc.2 h)

theorem increment_complaints_field (m : Nat) (t : BotS) (v : Nat) :
    (increment_complaints m t v).1.complaints =
      dinsert t.complaints v (complaintGet t v + 1) := by
  unfold increment_complaints
  simp only []
  split
  · rw [ban_auto_complaints]
  · rfl

theorem increment_reporting (m : Nat) (t : BotS) (v : Nat) :
    (increment_complaints m t v).1.reporting = t.reporting := by
  unfold increment_complaints
  simp only []
  split
  · rw [ban_auto_reporting]
  · rfl

theorem complaintGet_dinsert (C : List (Nat × Nat)) (v n : Nat) :
    (dlookup (dinsert C v n) v).getD 0 = n := by
  rw [dlookup_dinsert_self]
  rfl

/-- C1: for a participant with an active partner and an outstanding report
draft naming that partner, submitting the report reason ends the reporter's
current pair exactly once — afterwards both participants are unpaired,
whether or not the submission also auto-bans the target — and increments
the target partner's complaint counter by exactly one; the draft is
consumed. -/
theorem C1_report_submission (modId : Nat) (s : BotS) (u p : Nat) (txt : String)
    (hr : Reachable modId s)
    (hd : dlookup s.reporting u = some p)
    (hp : get_partner s u = some p) :
    get_partner (report_reason modId s u txt) u = none ∧
    get_partner (report_reason modId s u txt) p = none ∧
    complaintGet (report_reason modId s u txt) p = complaintGet s p + 1 ∧
    dlookup (report_reason modId s u txt).reporting u = none := by
  have h := inv_reachable hr
  have hu2 : dlookup s.pairs u = some p := hp
  have hp0 : p ≠ 0 := h.ppos u p hu2
  have hpu : dlookup s.pairs p = some u := h.psymm u p hu2
  have hu0 : u ≠ 0 := h.ppos p u hpu
  have hnd : (keys s.pairs).Nodup := h.pnodup
  have hrnd : (keys s.reporting).Nodup := h.rnodup
  unfold report_reason
  rw [hd]
  simp only []
  rw [if_neg hp0]
  by_cases hc : 5 ≤ complaintGet s p + 1 ∧ p ∉ s.banned
  · -- the submission pushes the target over the threshold: auto-ban path
    rw [increment_eq_of_ge]
    rotate_left
    · exact hc.1
    · exact hc.2
    refine ⟨?_, ?_, ?_, ?_⟩
    · simp only [get_partner, ite_emit_pairs, emit_pairs]
      rw [break_pair_lookup]
      rotate_left
      · exact ban_auto_nodup modId _ p hnd
      simp only [get_partner]
      rw [ban_auto_lookup]
      rotate_left
      · exact hnd
      simp only []
      rw [hpu, tval_some_of_ne u hu0]
      simp [tval]
    · simp only [get_partner, ite_emit_pairs, emit_pairs]
      rw [break_pair_lookup]
      rotate_left
      · exact ban_auto_nodup modId _ p hnd
      simp only [get_partner]
      rw [ban_auto_lookup]
      rotate_left
      · exact hnd
      simp only []
      rw [hpu, tval_some_of_ne u hu0]
      simp only [tval]
      rw [ban_auto_lookup]
      rotate_left
      · exact hnd
      simp only []
      rw [hpu, tval_some_of_ne u hu0]
      simp [tval]
    · simp only [complaintGet, ite_emit_complaints, emit_complaints,
        break_pair_complaints, ban_auto_complaints]
      rw [dlookup_dinsert_self]
      rfl
    · simp only [ite_emit_reporting, emit_reporting, break_pair_reporting,
        ban_auto_reporting]
      exact dlookup_derase_self _ _ hrnd
  · -- below the threshold (or already banned): plain break of the pair
    rw [increment_eq_of_noban]
    rotate_left
    · exact hc
    refine ⟨?_, ?_, ?_, ?_⟩
    · simp only [get_partner, ite_emit_pairs, emit_pairs]
      rw [break_pair_lookup]
      rotate_left
      · exact hnd
      simp only [get_partner]
      rw [hu2, tval_some_of_ne p hp0]
      simp [hu2]
    · simp only [get_partner, ite_emit_pairs, emit_pairs]
      rw [break_pair_lookup]
      rotate_left
      · exact hnd
      simp only [get_partner]
      rw [hu2, tval_some_of_ne p hp0]
      simp [hu2]
    · simp only [complaintGet, ite_emit_complaints, emit_complaints,
        break_pair_complaints]
      rw [dlookup_dinsert_self]
      rfl
    · simp only [ite_emit_reporting, emit_reporting, break_pair_reporting]
      exact dlookup_derase_self _ _ hrnd

theorem C1_witness :
    get_partner (report_reason 99 ex4 1 "spam") 1 = none ∧
    get_partner (report_reason 99 ex4 1 "spam") 2 = none ∧
    complaintGet (report_reason 99 ex4 1 "spam") 2 = complaintGet ex4 2 + 1 ∧
    dlookup (report_reason 99 ex4 1 "spam").reporting 1 = none :=
  C1_report_submission 99 ex4 1 2 "spam" (reach_ex4 99) (by decide) (by decide)

/-- C9 counterexample: in the reachable state `ex3` (active pair 1↔2) a
failed delivery from 1 appends exactly one message — the error notice to
the sender — so the partner 2 receives no notification of the termination,
refuting the claim that both sides are notified. -/
theorem C9_counterexample :
    Reachable 0 ex3 ∧ get_partner ex3 1 = some 2 ∧
    (relay ex3 1 (Content.ctext "hi") false).events =
      ex3.events ++ [Ev.relayError 1] ∧
    (∀ e ∈ (relay ex3 1 (Content.ctext "hi") false).events,
      e ∈ ex3.events ∨ evTarget e ≠ 2) :=
  ⟨reach_ex3 0, by decide, by decide, by decide⟩

/-- C9 amended: when relaying fails for a paired sender (with no open
report draft), the pair is broken — both sides end up unpaired — delivery
is not retried, the error is swallowed, and exactly one notification is
emitted: the interruption notice to the sender; the partner is not
notified. -/
theorem C9_relay_failure_breaks_pair (modId : Nat) (s : BotS) (u p : Nat)
    (c : Content)
    (hr : Reachable modId s)
    (hnr : dlookup s.reporting u = none)
    (hp : get_partner s u = some p) :
    get_partner (relay s u c false) u = none ∧
    get_partner (relay s u c false) p = none ∧
    (relay s u c false).events = s.events ++ [Ev.relayError u] := by
  have h := inv_reachable hr
  have hu2 : dlookup s.pairs u = some p := hp
  have hp0 : p ≠ 0 := h.ppos u p hu2
  have hnd : (keys s.pairs).Nodup := h.pnodup
  have htv : tval (get_partner s u) = some p := by
    rw [hp]
    exact tval_some_of_ne p hp0
  unfold relay
  rw [if_neg (show ¬((dlookup s.reporting u).isSome = true) by rw [hnr]; simp)]
  rw [htv]
  simp only []
  rw [if_neg Bool.false_ne_true]
  rw [break_pair_eq_some _ _ _ htv]
  refine ⟨?_, ?_, rfl⟩
  · simp only [get_partner, emit_pairs]
    rw [lookup_bk _ _ _ _ hnd]
    simp
  · simp only [get_partner, emit_pairs]
    rw [lookup_bk _ _ _ _ hnd]
    simp

theorem C9_witness :
    get_partner (relay ex3 1 Content.photo false) 1 = none ∧
    get_partner (relay ex3 1 Content.photo false) 2 = none ∧
    (relay ex3 1 Content.photo false).events = ex3.events ++ [Ev.relayError 1] :=
  C9_relay_failure_breaks_pair 99 ex3 1 2 Content.photo (reach_ex3 99)
    (by decide) (by decide)

/-- C2: when a report takes a not-yet-banned target's complaint counter
from 4 to the threshold 5, the increment auto-bans the target exactly once:
the target is banned, removed from the queue and the pair table, a former
partner (if any) is notified, and — when a moderator is configured — the
auto-ban notice is sent to the moderator.  Once the target is banned,
further increments only bump the counter (no second auto-ban), and the
manual ban path never emits the auto-ban moderator notice, so the two
notifications are distinct. -/
theorem C2_autoban_threshold (modId : Nat) (s : BotS) (u : Nat)
    (hr : Reachable modId s)
    (hcnt : complaintGet s u = 4) (hnb : u ∉ s.banned) :
    (u ∈ (increment_complaints modId s u).1.banned ∧
     (∀ e ∈ (increment_complaints modId s u).1.queue, e.1 ≠ u) ∧
     dlookup (increment_complaints modId s u).1.pairs u = none ∧
     (∀ p, get_partner s u = some p →
        Ev.partnerLeft p ∈ (increment_complaints modId s u).1.events) ∧
     (modId ≠ 0 → Ev.modAutoBan modId u ∈ (increment_complaints modId s u).1.events)) ∧
    (∀ t : BotS, ∀ v : Nat, v ∈ t.banned →
      (increment_complaints modId t v).1 =
        { t with complaints := dinsert t.complaints v (complaintGet t v + 1) }) ∧
    (∀ t : BotS, ∀ v w : Nat, Ev.modAutoBan w v ∉ t.events →
      Ev.modAutoBan w v ∉ (ban_user_complete t v).events) := by
  have h := inv_reachable hr
  have hnd : (keys s.pairs).Nodup := h.pnodup
  refine ⟨?_, fun t v hv => increment_eq_of_banned modId t v hv, ?_⟩
  · rw [increment_eq_of_ge]
    rotate_left
    · rw [hcnt]
    · exact hnb
    refine ⟨?_, ?_, ?_, ?_, ?_⟩
    · rw [ban_auto_banned]
      exact (mem_sinsert _ _ _).mpr (Or.inl rfl)
    · rw [ban_auto_queue]
      intro e he
      simpa using (List.mem_filter.mp he).2
    · rw [ban_auto_lookup]
      rotate_left
      · exact hnd
      simp only []
      cases hgp : dlookup s.pairs u with
      | none => rfl
      | some q =>
          have hq0 : q ≠ 0 := h.ppos u q hgp
          rw [tval_some_of_ne q hq0]
          simp
    · intro p hpp
      have hp2 : dlookup s.pairs u = some p := hpp
      have hp0 : p ≠ 0 := h.ppos u p hp2
      apply ban_auto_events_partner
      have htv : tval (dlookup s.pairs u) = some p := by
        rw [hp2]
        exact tval_some_of_ne p hp0
      exact htv
    · intro hm
      exact ban_auto_events_mod modId _ u hm
  · intro t v w hnot
    unfold ban_user_complete
    simp only []
    split
    · rename_i q heq
      rw [break_pair_eq_some _ _ _ (break_pair_snd _ _ ▸ heq)]
      intro hmem
      rcases List.mem_append.mp hmem with h1 | h2
      · rcases List.mem_append.mp h1 with h3 | h4
        · exact hnot h3
        · simp at h4
      · simp at h2
    · rename_i heq
      rw [break_pair_eq_none _ _ (break_pair_snd _ _ ▸ heq)]
      intro hmem
      rcases List.mem_append.mp hmem with h1 | h2
      · exact hnot h1
      · simp at h2

/-- One full report cycle from a state where 1 and 2 are both idle and
unpaired: both search, 2's poll pairs them, 1 reports 2 and submits the
reason (moderator id 9). -/
def rcycle (s : BotS) : BotS :=
  report_reason 9
    (report_cmd (wait_tick (search_for_user (search_for_user s 1 true) 2 true) 2) 1)
    1 "x"

theorem reach_rcycle (s : BotS) (h : Reachable 9 s)
    (hw : 2 ∈ (search_for_user (search_for_user s 1 true) 2 true).waiting) :
    Reachable 9 (rcycle s) :=
  Reachable.step (Reachable.step (Reachable.step (Reachable.step (Reachable.step h
    (Step.search s 1 true (by decide)))
    (Step.search _ 2 true (by decide)))
    (Step.tick _ 2 (by decide) hw))
    (Step.report _ 1 (by decide)))
    (Step.reason _ 1 "x" (by decide))

/-- Four consecutive report cycles: afterwards user 2 has complaint count 4
and is not yet banned. -/
def w4 : BotS := rcycle (rcycle (rcycle (rcycle init)))

theorem reach_w4 : Reachable 9 w4 :=
  reach_rcycle _ (reach_rcycle _ (reach_rcycle _ (reach_rcycle _
    Reachable.init (by decide)) (by decide)) (by decide)) (by decide)

theorem C2_witness :
    (2 ∈ (increment_complaints 9 w4 2).1.banned ∧
     (∀ e ∈ (increment_complaints 9 w4 2).1.queue, e.1 ≠ 2) ∧
     dlookup (increment_complaints 9 w4 2).1.pairs 2 = none ∧
     (∀ p, get_partner w4 2 = some p →
        Ev.partnerLeft p ∈ (increment_complaints 9 w4 2).1.events) ∧
     ((9 : Nat) ≠ 0 → Ev.modAutoBan 9 2 ∈ (increment_complaints 9 w4 2).1.events)) ∧
    (∀ t : BotS, ∀ v : Nat, v ∈ t.banned →
      (increment_complaints 9 t v).1 =
        { t with complaints := dinsert t.complaints v (complaintGet t v + 1) }) ∧
    (∀ t : BotS, ∀ v w : Nat, Ev.modAutoBan w v ∉ t.events →
      Ev.modAutoBan w v ∉ (ban_user_complete t v).events) :=
  C2_autoban_threshold 9 w4 2 reach_w4 (by decide) (by decide)

end ChatBot
